import Mathlib

/-!
Shallow embedding of the go_VPN secure tunnel forwarding engine
(repository gedons/go_VPN), covering:

* the AEAD codec (`internal/crypto/crypto.go`),
* the server-side peer registry and both forwarding pumps
  (`cmd/server/main.go`),
* the virtual-interface packet read (`internal/tun/wintun.go`),
* the configuration record, its validation, display and save operations
  (`internal/config/config.go`),
* the client connection-with-retry loop (`client/main.go`).

Bytes are modelled as `Nat`, byte strings as `List Nat`, Go strings as
`List Char`, `time.Duration` as nanoseconds in `Nat`, and Go's fallible
returns as `Except`/`Option`.  The Go standard-library AEAD primitive
(`crypto/cipher.AEAD`, instantiated with AES-GCM) is external to the
repository; it is modelled as an abstract structure `AEAD` carrying
exactly the contract Go's `cipher.AEAD` documents: `Seal` produces
`len(plaintext) + Overhead` bytes and `Open` inverts `Seal`.
-/

namespace GoVPN

/-- One nanosecond-denominated second, matching Go's `time.Second`. -/
def Second : Nat := 1000000000

/-- Go's `time.Minute`. -/
def Minute : Nat := 60 * Second

/-- `cmd/server/main.go`: `ClientTimeoutDuration = 5 * time.Minute`. -/
def ClientTimeoutDuration : Nat := 5 * Minute

/-- `client/main.go`: `ReconnectDelay = 5 * time.Second`. -/
def ReconnectDelay : Nat := 5 * Second

/-- `client/main.go`: `MaxReconnectTries = 10`. -/
def MaxReconnectTries : Nat := 10

/-- Abstract AEAD primitive: the contract of Go's `crypto/cipher.AEAD`
as documented in the standard library (external to the repository).
`seal nonce pt` is the ciphertext-with-tag appended by `Seal` (without
the `dst` prefix); `openAEAD nonce ct` is `Open`, returning `none` when
the integrity tag does not verify. -/
structure AEAD where
  nonceSize : Nat
  overhead : Nat
  sealAEAD : List Nat → List Nat → List Nat
  openAEAD : List Nat → List Nat → Option (List Nat)
  seal_length : ∀ n pt, (sealAEAD n pt).length = pt.length + overhead
  open_seal : ∀ n pt, openAEAD n (sealAEAD n pt) = some pt

/-- `internal/crypto/crypto.go`: `type Cipher struct { gcm cipher.AEAD; key []byte }`. -/
structure Cipher where
  gcm : AEAD
  key : List Nat

/-- The two failure modes of `Cipher.Decrypt` in the spec's taxonomy:
`malformedFrame` is the `io.ErrUnexpectedEOF` returned on a short frame,
`authenticationFailed` is the error returned by `gcm.Open`. -/
inductive DecryptError where
  | malformedFrame
  | authenticationFailed
deriving DecidableEq, Repr

/-- `internal/crypto/crypto.go` lines 27-34, `Cipher.Encrypt`.
The random source is explicit: `rand = none` models a failed
`io.ReadFull(rand.Reader, nonce)`, `rand = some nonce` a successful read
of the fresh nonce.  On success the code runs
`gcm.Seal(nonce, nonce, plaintext, nil)`, whose result is the nonce with
the sealed bytes appended. -/
def Cipher.Encrypt (c : Cipher) (rand : Option (List Nat)) (plaintext : List Nat) :
    Except Unit (List Nat) :=
  match rand with
  | none => .error ()
  | some nonce => .ok (nonce ++ c.gcm.sealAEAD nonce plaintext)

/-- `internal/crypto/crypto.go` lines 36-43, `Cipher.Decrypt`:
reject frames shorter than the nonce size, otherwise split off the
nonce and open the remainder. -/
def Cipher.Decrypt (c : Cipher) (ciphertext : List Nat) :
    Except DecryptError (List Nat) :=
  if ciphertext.length < c.gcm.nonceSize then .error .malformedFrame
  else
    match c.gcm.openAEAD (ciphertext.take c.gcm.nonceSize)
        (ciphertext.drop c.gcm.nonceSize) with
    | some pt => .ok pt
    | none => .error .authenticationFailed

/-- `internal/crypto/crypto.go` lines 15-25, `NewCipher`:
`aes.NewCipher` accepts exactly 16-, 24- or 32-byte keys
(AES-128/192/256); `cipher.NewGCM` always succeeds on an AES block.
The AEAD construction itself is a parameter (`mkAEAD`), since the GCM
internals are outside the repository. -/
def aesKeyLengthOk (n : Nat) : Bool :=
  n = 16 || n = 24 || n = 32

/-- `NewCipher(key)`: error for every key length other than 16/24/32,
otherwise a `Cipher` holding the GCM instance and the key. -/
def NewCipher (mkAEAD : List Nat → AEAD) (key : List Nat) : Except String Cipher :=
  if aesKeyLengthOk key.length then .ok ⟨mkAEAD key, key⟩
  else .error "crypto/aes: invalid key size"

/-! ### A concrete AEAD instance for evaluating witnesses.

`gcm12` satisfies the `cipher.AEAD` contract with GCM's parameters
(12-byte nonce, 16-byte overhead); the sealing function is a toy stand-in
used only to instantiate universally quantified theorems on concrete
inputs. -/

/-- A fixed 16-byte tag used by the toy sealing function. -/
def tagConst : List Nat := List.replicate 16 0

/-- Toy sealing function: prepend the fixed tag to the plaintext. -/
def toySeal (_nonce pt : List Nat) : List Nat := tagConst ++ pt

/-- Toy opening function: check the fixed tag and strip it. -/
def toyOpen (_nonce ct : List Nat) : Option (List Nat) :=
  if ct.take 16 = tagConst then some (ct.drop 16) else none

/-- A concrete AEAD with GCM's sizes (nonce 12, overhead 16). -/
def gcm12 : AEAD where
  nonceSize := 12
  overhead := 16
  sealAEAD := toySeal
  openAEAD := toyOpen
  seal_length := fun n pt => by simp [toySeal, tagConst]
  open_seal := fun n pt => by
    have htag : (tagConst : List Nat).length = 16 := by simp [tagConst]
    simp [toyOpen, toySeal, ← htag, List.take_left, List.drop_left]

/-! ### Server-side peer registry (`cmd/server/main.go`) -/

/-- `cmd/server/main.go` lines 26-31, `ClientInfo`: one registry entry.
`addr` is the endpoint key (`addr.String()`, an "ip:port" string);
timestamps are nanoseconds. -/
structure ClientInfo where
  addr : List Char
  lastSeen : Nat
  packetsSent : Nat
  packetsRecv : Nat
deriving DecidableEq, Repr

/-- `cmd/server/main.go` lines 356-373, `VPNServer.updateClient`:
if the endpoint is already present, refresh `lastSeen` and increment
`packetsRecv`; otherwise insert a new entry with `packetsRecv = 1`.
The Go map `clients` is modelled as a list keyed by `addr`. -/
def updateClient : List ClientInfo → List Char → Nat → List ClientInfo
  | [], addr, now => [⟨addr, now, 0, 1⟩]
  | c :: rest, addr, now =>
    if c.addr = addr then
      { c with lastSeen := now, packetsRecv := c.packetsRecv + 1 } :: rest
    else c :: updateClient rest addr now

/-- `cmd/server/main.go` lines 412-423, `VPNServer.cleanupStaleClients`:
delete every entry with `now - lastSeen > ClientTimeoutDuration`
(Go's signed `time.Duration` comparison agrees with truncated `Nat`
subtraction here: when `lastSeen > now` both sides keep the entry). -/
def cleanupStaleClients (clients : List ClientInfo) (now : Nat) : List ClientInfo :=
  clients.filter fun c => !decide (now - c.lastSeen > ClientTimeoutDuration)

/-- `cmd/server/main.go` lines 375-392, `VPNServer.broadcastToClients`:
snapshot the registry, then send `data` to every snapshotted peer,
incrementing its `packetsSent` on success (sends are modelled as
succeeding).  Returns the list of `WriteToUDP` calls `(addr, payload)`
in order, and the updated registry. -/
def broadcastToClients (clients : List ClientInfo) (data : List Nat) :
    List (List Char × List Nat) × List ClientInfo :=
  (clients.map fun c => (c.addr, data),
   clients.map fun c => { c with packetsSent := c.packetsSent + 1 })

/-! ### Virtual-interface read (`internal/tun/wintun.go`) -/

/-- Outcome of one `wintun.Session.ReceivePacket` call (the Wintun
driver session is external to the repository). -/
inductive SessionRecv where
  | noMoreData
  | nilPacket
  | pkt (data : List Nat)
  | recvFailed
deriving DecidableEq, Repr

/-- `internal/tun/wintun.go` lines 74-94, `WintunManager.ReadPacket`:
the "No more data is available." error and a nil packet both return
`(nil, nil)` — a nil packet with a nil error; a real packet is copied
out; any other error is propagated. -/
def WintunReadPacket : SessionRecv → Except Unit (Option (List Nat))
  | .noMoreData => .ok none
  | .nilPacket => .ok none
  | .pkt data => .ok (some data)
  | .recvFailed => .error ()

/-! ### Server forwarding pumps (`cmd/server/main.go`) -/

/-- One iteration of `cmd/server/main.go` lines 327-354,
`VPNServer.forwardTunToUDP`: read a packet from the interface (result
given as `read`); on read error, no sends; otherwise encrypt it — a Go
nil packet seals like the empty packet — consuming one nonce from the
random tape `rands`, and broadcast the single sealed frame to every
registered client.  Returns (sends, updated registry, remaining tape). -/
def forwardTunToUDPStep (A : AEAD) (key : List Nat) (rands : List (List Nat))
    (read : Except Unit (Option (List Nat))) (clients : List ClientInfo) :
    List (List Char × List Nat) × List ClientInfo × List (List Nat) :=
  match read with
  | .error _ => ([], clients, rands)
  | .ok pkt =>
    match rands with
    | [] => ([], clients, [])
    | nonce :: rest =>
      match Cipher.Encrypt ⟨A, key⟩ (some nonce) (pkt.getD []) with
      | .error _ => ([], clients, rest)
      | .ok enc =>
        let r := broadcastToClients clients enc
        (r.1, r.2, rest)

/-- Outcome of one `udpConn.ReadFromUDP` call in the server's ingress
pump. -/
inductive UdpRead where
  | timeout
  | readFailed
  | datagram (addr : List Char) (data : List Nat)
deriving DecidableEq, Repr

/-- One iteration of `cmd/server/main.go` lines 290-325,
`VPNServer.forwardUDPToTun`: on timeout or read error, continue with the
registry unchanged; on a datagram, FIRST call `updateClient` with the
sender's endpoint, THEN decrypt — a decrypt failure drops the datagram
but keeps the registry update.  Returns (updated registry, packet
written to the interface if any). -/
def forwardUDPToTunStep (A : AEAD) (key : List Nat) (clients : List ClientInfo)
    (now : Nat) (read : UdpRead) : List ClientInfo × Option (List Nat) :=
  match read with
  | .timeout => (clients, none)
  | .readFailed => (clients, none)
  | .datagram addr data =>
    let clients' := updateClient clients addr now
    match Cipher.Decrypt ⟨A, key⟩ data with
    | .error _ => (clients', none)
    | .ok pt => (clients', some pt)

/-! ### Client connection retry (`client/main.go`) -/

/-- `client/main.go` lines 199-229, `VPNClient.connectWithRetry`,
from loop index `i` with `fuel` attempts remaining (`fuel = MaxReconnectTries - i`).
`dial i` tells whether `net.DialTimeout` succeeds on attempt index `i`.
Returns (the attempt index whose connection is held, or `none`;
the number of dial attempts made; the total time slept between
attempts).  On a failed attempt that is not the last, the loop sleeps
`ReconnectDelay` and retries; on the last it returns the error at once. -/
def connectAux (dial : Nat → Bool) : Nat → Nat → Option Nat × Nat × Nat
  | _, 0 => (none, 0, 0)
  | i, fuel + 1 =>
    if dial i then (some i, 1, 0)
    else if fuel = 0 then (none, 1, 0)
    else
      let r := connectAux dial (i + 1) fuel
      (r.1, r.2.1 + 1, r.2.2 + ReconnectDelay)

/-- `client/main.go` lines 199-229: the whole retry loop,
`for i := 0; i < MaxReconnectTries; i++`. -/
def connectWithRetry (dial : Nat → Bool) : Option Nat × Nat × Nat :=
  connectAux dial 0 MaxReconnectTries

/-! ### Configuration (`internal/config/config.go`) -/

/-- ASCII whitespace, the cases of Go's `unicode.IsSpace` relevant to
configuration strings. -/
def isSpaceChar (c : Char) : Bool :=
  c = ' ' || c = '\t' || c = '\n' || c = '\r'

/-- Go's `strings.TrimSpace` on a string modelled as `List Char`. -/
def trimSpace (s : List Char) : List Char :=
  ((s.dropWhile isSpaceChar).reverse.dropWhile isSpaceChar).reverse

/-- `internal/config/config.go` lines 35-41, `Config`.  Strings are
`List Char`; `ServerPort` is Go's signed `int`. -/
structure Config where
  ServerIP : List Char
  ServerPort : Int
  PSK : List Char
  AdapterName : List Char
  AdapterIPCIDR : List Char
deriving DecidableEq, Repr

/-- `internal/config/config.go` lines 78-121, `Config.Validate`:
the list of validation error messages, in source order; the
configuration is valid exactly when the list is empty.  (`len(psk)` in
Go counts bytes; for the ASCII secrets at issue this equals the
character count used here.) -/
def Config.Validate (c : Config) : List String :=
  (if trimSpace c.ServerIP = [] then ["server_ip cannot be empty"] else []) ++
  (if c.ServerPort ≤ 0 ∨ c.ServerPort > 65535 then
    ["server_port must be between 1 and 65535"] else []) ++
  (let psk := trimSpace c.PSK
   if psk = [] then ["psk cannot be empty"]
   else if psk.length < 16 then ["psk must be at least 16 characters long for security"]
   else if psk.length > 64 then ["psk cannot be longer than 64 characters"]
   else []) ++
  (if trimSpace c.AdapterName = [] then ["adapter_name cannot be empty"] else []) ++
  (if trimSpace c.AdapterIPCIDR = [] then ["adapter_ip_cidr cannot be empty"]
   else if !(c.AdapterIPCIDR.contains '/') then
    ["adapter_ip_cidr must be in CIDR format (e.g., 10.0.0.1/24)"]
   else [])

/-- `internal/config/config.go` lines 196-199, `Config.String`:
the display form; every field except the PSK is interpolated, the PSK
position holds the literal `[REDACTED]`. -/
def Config.stringRepr (c : Config) : List Char :=
  "Config\x7bServerIP: ".data ++ c.ServerIP ++
  ", ServerPort: ".data ++ (toString c.ServerPort).data ++
  ", AdapterName: ".data ++ c.AdapterName ++
  ", AdapterIPCIDR: ".data ++ c.AdapterIPCIDR ++
  ", PSK: [REDACTED]\x7d".data

/-- The bytes `yaml.Marshal` produces for a `Config`, modelled from the
yaml library's documented behaviour: every exported field is emitted
under its `yaml` tag, in struct order — including `psk`, which carries
the tag `psk` and no omission marker. -/
def yamlMarshal (c : Config) : List Char :=
  "server_ip: ".data ++ c.ServerIP ++
  "\nserver_port: ".data ++ (toString c.ServerPort).data ++
  "\npsk: ".data ++ c.PSK ++
  "\nadapter_name: ".data ++ c.AdapterName ++
  "\nadapter_ip_cidr: ".data ++ c.AdapterIPCIDR ++ "\n".data

/-- The part of `yamlMarshal c` preceding the PSK bytes. -/
def yamlPrePSK (c : Config) : List Char :=
  "server_ip: ".data ++ c.ServerIP ++
  "\nserver_port: ".data ++ (toString c.ServerPort).data ++ "\npsk: ".data

/-- The part of `yamlMarshal c` following the PSK bytes. -/
def yamlPostPSK (c : Config) : List Char :=
  "\nadapter_name: ".data ++ c.AdapterName ++
  "\nadapter_ip_cidr: ".data ++ c.AdapterIPCIDR ++ "\n".data

/-- `internal/config/config.go` lines 168-193, `Config.SaveConfig`:
validate, then marshal the whole configuration to YAML and write it to
the configuration file.  Returns the bytes written to persistent
storage. -/
def Config.SaveConfig (c : Config) : Except String (List Char) :=
  if c.Validate = [] then .ok (yamlMarshal c)
  else .error "cannot save invalid configuration"

/-- `[]byte(conf.PSK)`: the key bytes handed to `NewCipher` by both
`cmd/server/main.go` line 149 and `client/main.go` line 133 (UTF-8
bytes; identical to code points for ASCII secrets). -/
def strBytes (s : List Char) : List Nat :=
  s.map Char.toNat

/-! ### Concrete fixtures for witnesses and counterexamples -/

/-- Endpoint key of a first sample peer. -/
def addrA : List Char := "10.8.0.2:51000".data

/-- Endpoint key of a second sample peer. -/
def addrB : List Char := "10.8.0.3:51001".data

/-- A registered sample peer at endpoint `addrA`. -/
def clientA : ClientInfo := ⟨addrA, 0, 0, 1⟩

/-- A registered sample peer at endpoint `addrB`. -/
def clientB : ClientInfo := ⟨addrB, 0, 0, 1⟩

/-- A configuration that passes `Validate` (16-character PSK). -/
def cfgSample : Config :=
  ⟨"10.8.0.1".data, 51820, "abcdefghijklmnop".data,
   "GoVPN-Server".data, "10.8.0.1/24".data⟩

/-- `cfgSample` with a different 16-character PSK. -/
def cfgSample2 : Config :=
  { cfgSample with PSK := "ponmlkjihgfedcba".data }

/-- `cfgSample` with a 17-character PSK: passes `Validate`, but 17 is
not an AES key length. -/
def cfg17 : Config :=
  { cfgSample with PSK := "abcdefghijklmnopq".data }

/-! ### Claims about the AEAD codec -/

/-- C1: for every packet `p` encryptable under the configured key,
decrypting the sealed frame produced by encrypting `p` returns `p`:
`Decrypt(Encrypt(p)) == p` (for any AEAD primitive meeting the
`cipher.AEAD` contract, whenever the random nonce read has the
primitive's nonce length). -/
theorem decrypt_encrypt_roundtrip (A : AEAD) (key nonce pt frame : List Nat)
    (hn : nonce.length = A.nonceSize)
    (he : Cipher.Encrypt ⟨A, key⟩ (some nonce) pt = .ok frame) :
    Cipher.Decrypt ⟨A, key⟩ frame = .ok pt := by
  have hf : frame = nonce ++ A.sealAEAD nonce pt := by
    simpa [Cipher.Encrypt] using he.symm
  subst hf
  have hlen : (nonce ++ A.sealAEAD nonce pt).length =
      A.nonceSize + (pt.length + A.overhead) := by
    simp [A.seal_length, hn]
  have hle : A.nonceSize ≤ nonce.length + (A.sealAEAD nonce pt).length := by
    simp only [List.length_append] at hlen
    omega
  simp [Cipher.Decrypt, hle, List.take_left' hn, List.drop_left' hn, A.open_seal]

/-- Witness for C1 at a concrete nonce, key and packet. -/
theorem decrypt_encrypt_roundtrip_witness :
    Cipher.Decrypt ⟨gcm12, []⟩
      (List.replicate 12 1 ++ gcm12.sealAEAD (List.replicate 12 1) [1, 2, 3]) =
      .ok [1, 2, 3] :=
  decrypt_encrypt_roundtrip gcm12 [] (List.replicate 12 1) [1, 2, 3] _
    (by decide) rfl

/-- C4: `Decrypt` on a frame shorter than the nonce length returns the
malformed-frame error, for every AEAD primitive — so without depending
on (invoking) the open operation; on a frame of at least nonce length
whose tag does not verify it returns the authentication-failure error;
and whenever it returns a plaintext, that plaintext is exactly the one
the AEAD open operation authenticated — never a different one. -/
theorem decrypt_error_taxonomy (A : AEAD) (key frame : List Nat) :
    (frame.length < A.nonceSize →
      Cipher.Decrypt ⟨A, key⟩ frame = .error .malformedFrame) ∧
    (A.nonceSize ≤ frame.length →
      A.openAEAD (frame.take A.nonceSize) (frame.drop A.nonceSize) = none →
      Cipher.Decrypt ⟨A, key⟩ frame = .error .authenticationFailed) ∧
    (∀ pt, Cipher.Decrypt ⟨A, key⟩ frame = .ok pt →
      A.openAEAD (frame.take A.nonceSize) (frame.drop A.nonceSize) = some pt) := by
  refine ⟨fun h => by simp [Cipher.Decrypt, h], fun h hopen => ?_, fun pt h => ?_⟩
  · simp [Cipher.Decrypt, Nat.not_lt.mpr h, hopen]
  · by_cases hlt : frame.length < A.nonceSize
    · simp [Cipher.Decrypt, hlt] at h
    · rw [Cipher.Decrypt, if_neg hlt] at h
      cases hO : A.openAEAD (frame.take A.nonceSize) (frame.drop A.nonceSize) with
      | none => rw [hO] at h; cases h
      | some q =>
        rw [hO] at h
        injection h with hqp
        subst hqp
        rfl

/-- Witness for C4: a 2-byte frame is rejected as malformed, and a
12-byte-nonce frame with an unverifiable remainder is rejected as an
authentication failure. -/
theorem decrypt_error_taxonomy_witness :
    Cipher.Decrypt ⟨gcm12, []⟩ [1, 2] = .error .malformedFrame ∧
    Cipher.Decrypt ⟨gcm12, []⟩ (List.replicate 12 0 ++ [9, 9]) =
      .error .authenticationFailed :=
  ⟨(decrypt_error_taxonomy gcm12 [] [1, 2]).1 (by decide),
   (decrypt_error_taxonomy gcm12 [] (List.replicate 12 0 ++ [9, 9])).2.1
     (by decide) (by decide)⟩

/-- C5: a successful `Encrypt(p)` is exactly `nonce ++ ciphertext‖tag`
with the freshly read random nonce prepended verbatim; with GCM's
parameters (12-byte nonce, 16-byte overhead) its length is
`len(p) + 12 + 16`; and a failure to obtain randomness yields an error,
never a frame built from a weak nonce. -/
theorem encrypt_frame_layout (A : AEAD) (key nonce pt : List Nat)
    (hn : nonce.length = A.nonceSize) (h12 : A.nonceSize = 12)
    (h16 : A.overhead = 16) :
    Cipher.Encrypt ⟨A, key⟩ (some nonce) pt =
      .ok (nonce ++ A.sealAEAD nonce pt) ∧
    (nonce ++ A.sealAEAD nonce pt).length = pt.length + 12 + 16 ∧
    (nonce ++ A.sealAEAD nonce pt).take 12 = nonce ∧
    Cipher.Encrypt ⟨A, key⟩ none pt = .error () := by
  refine ⟨rfl, ?_, ?_, rfl⟩
  · have := A.seal_length nonce pt
    simp only [List.length_append, hn, h12, h16] at *
    omega
  · exact List.take_left' (hn.trans h12)

/-- Witness for C5 at a concrete nonce and packet. -/
theorem encrypt_frame_layout_witness :
    Cipher.Encrypt ⟨gcm12, []⟩ (some (List.replicate 12 2)) [5, 6] =
      .ok (List.replicate 12 2 ++ gcm12.sealAEAD (List.replicate 12 2) [5, 6]) ∧
    (List.replicate 12 2 ++ gcm12.sealAEAD (List.replicate 12 2) [5, 6]).length =
      ([5, 6] : List Nat).length + 12 + 16 ∧
    (List.replicate 12 2 ++ gcm12.sealAEAD (List.replicate 12 2) [5, 6]).take 12 =
      List.replicate 12 2 ∧
    Cipher.Encrypt ⟨gcm12, []⟩ none [5, 6] = .error () :=
  encrypt_frame_layout gcm12 [] (List.replicate 12 2) [5, 6]
    (by decide) (by decide) (by decide)

/-! ### Claims about the server pumps and registry -/

/-- C2 (amended): one inbound interface packet on the server is
encrypted once — consuming exactly one nonce from the random source —
and the resulting single sealed frame is sent once to every peer in the
registry snapshot: the `SendTo` list is exactly one datagram per
registry entry, all carrying the same payload. -/
theorem fanout_broadcast (A : AEAD) (key nonce pkt : List Nat)
    (rest : List (List Nat)) (clients : List ClientInfo) :
    (forwardTunToUDPStep A key (nonce :: rest) (.ok (some pkt)) clients).1 =
      clients.map (fun c => (c.addr, nonce ++ A.sealAEAD nonce pkt)) ∧
    (∀ a : List Char,
      (((forwardTunToUDPStep A key (nonce :: rest) (.ok (some pkt)) clients).1.map
        Prod.fst).count a) = ((clients.map ClientInfo.addr).count a)) ∧
    (forwardTunToUDPStep A key (nonce :: rest) (.ok (some pkt)) clients).2.2 = rest := by
  refine ⟨rfl, fun a => ?_, rfl⟩
  have hmap : (clients.map fun c : ClientInfo =>
      (c.addr, nonce ++ A.sealAEAD nonce pkt)).map Prod.fst =
      clients.map ClientInfo.addr := by
    rw [List.map_map]
    rfl
  simp only [forwardTunToUDPStep, Cipher.Encrypt, broadcastToClients,
    Option.getD_some]
  rw [hmap]

/-- Counterexample to C2 as stated: with peers A and B registered, the
forwarding step for one packet makes exactly one send to each peer, but
both datagrams are the SAME sealed frame (a single `Encrypt` output
under a single nonce), and exactly one nonce is drawn from the random
tape — not two independently-nonced encryptions. -/
theorem fanout_single_encryption_counterexample :
    forwardTunToUDPStep gcm12 [] [List.replicate 12 3] (.ok (some [1, 2, 3]))
        [clientA, clientB] =
      ([(addrA, List.replicate 12 3 ++ (tagConst ++ [1, 2, 3])),
        (addrB, List.replicate 12 3 ++ (tagConst ++ [1, 2, 3]))],
       [⟨addrA, 0, 1, 1⟩, ⟨addrB, 0, 1, 1⟩],
       ([] : List (List Nat))) := by
  rfl

/-- C9: when the virtual interface has no packet available,
`WintunManager.ReadPacket` returns a nil packet with a nil error; the
egress pump treats this as a successful read, encrypts the nil (empty)
packet, and sends the resulting sealed frame of empty plaintext to every
registered peer instead of skipping the iteration. -/
theorem nil_packet_is_encrypted (A : AEAD) (key nonce : List Nat)
    (rest : List (List Nat)) (clients : List ClientInfo)
    (hne : clients ≠ []) :
    WintunReadPacket .noMoreData = .ok none ∧
    (forwardTunToUDPStep A key (nonce :: rest)
        (WintunReadPacket .noMoreData) clients).1 =
      clients.map (fun c => (c.addr, nonce ++ A.sealAEAD nonce [])) ∧
    (forwardTunToUDPStep A key (nonce :: rest)
        (WintunReadPacket .noMoreData) clients).1 ≠ [] := by
  refine ⟨rfl, rfl, ?_⟩
  simpa [forwardTunToUDPStep, WintunReadPacket, Cipher.Encrypt,
    broadcastToClients] using hne

/-- Witness for C9: with one registered peer, the idle-interface read
produces one sealed frame of empty plaintext sent to that peer. -/
theorem nil_packet_is_encrypted_witness :
    WintunReadPacket .noMoreData = .ok none ∧
    (forwardTunToUDPStep gcm12 [] [List.replicate 12 4]
        (WintunReadPacket .noMoreData) [clientA]).1 =
      [clientA].map (fun c => (c.addr, List.replicate 12 4 ++ gcm12.sealAEAD (List.replicate 12 4) [])) ∧
    (forwardTunToUDPStep gcm12 [] [List.replicate 12 4]
        (WintunReadPacket .noMoreData) [clientA]).1 ≠ [] :=
  nil_packet_is_encrypted gcm12 [] (List.replicate 12 4) [] [clientA] (by decide)

/-- After `updateClient clients addr now` the registry holds an entry
for `addr` whose `lastSeen` is `now`. -/
theorem updateClient_mem (clients : List ClientInfo) (addr : List Char) (now : Nat) :
    ∃ c ∈ updateClient clients addr now, c.addr = addr ∧ c.lastSeen = now := by
  induction clients with
  | nil => exact ⟨⟨addr, now, 0, 1⟩, by simp [updateClient], rfl, rfl⟩
  | cons c rest ih =>
    by_cases h : c.addr = addr
    · refine ⟨{ c with lastSeen := now, packetsRecv := c.packetsRecv + 1 }, ?_, h, rfl⟩
      simp [updateClient, h]
    · obtain ⟨c', hmem, hc'⟩ := ih
      exact ⟨c', by simp [updateClient, h, hmem], hc'⟩

/-- C3 (amended): the server's ingress step calls `updateClient` for
EVERY datagram read from the socket, before decryption and regardless of
its outcome — so after any datagram from `addr`, the registry holds an
entry for `addr` refreshed to `now`, whether or not the datagram
decrypted; a registry entry therefore only witnesses that a datagram was
received from that endpoint, not that an authentic one was. -/
theorem touch_unconditional (A : AEAD) (key : List Nat) (clients : List ClientInfo)
    (now : Nat) (addr : List Char) (data : List Nat) :
    (forwardUDPToTunStep A key clients now (.datagram addr data)).1 =
      updateClient clients addr now ∧
    ∃ c ∈ (forwardUDPToTunStep A key clients now (.datagram addr data)).1,
      c.addr = addr ∧ c.lastSeen = now := by
  have hreg : (forwardUDPToTunStep A key clients now (.datagram addr data)).1 =
      updateClient clients addr now := by
    cases hD : Cipher.Decrypt ⟨A, key⟩ data <;>
      simp [forwardUDPToTunStep, hD]
  exact ⟨hreg, hreg ▸ updateClient_mem clients addr now⟩

/-- Counterexample to C3 as stated: the empty 2-byte datagram `[1, 2]`
from a previously-unknown endpoint fails decryption (malformed frame),
yet the ingress step creates a registry entry for that endpoint — a
datagram that fails decryption does create a registry entry. -/
theorem touch_on_failed_decrypt_counterexample :
    Cipher.Decrypt ⟨gcm12, []⟩ [1, 2] = .error .malformedFrame ∧
    (forwardUDPToTunStep gcm12 [] [] 5 (.datagram addrA [1, 2])).1 =
      [⟨addrA, 5, 0, 1⟩] :=
  ⟨rfl, rfl⟩

/-- C6: one eviction sweep at time `now` retains exactly the entries
whose idle time is within the timeout — an entry survives iff it was
present and `now - lastSeen ≤ ClientTimeoutDuration` (so every peer idle
longer than the 5-minute timeout is removed) — and the retained entries
are the original ones, unchanged and in order (a sublist of the input);
the timeout constant is 5 minutes. -/
theorem cleanup_removes_exactly_stale (clients : List ClientInfo) (now : Nat) :
    (∀ c, c ∈ cleanupStaleClients clients now ↔
      c ∈ clients ∧ now - c.lastSeen ≤ ClientTimeoutDuration) ∧
    (cleanupStaleClients clients now).Sublist clients ∧
    ClientTimeoutDuration = 5 * Minute := by
  refine ⟨fun c => ?_, List.filter_sublist _, rfl⟩
  simp [cleanupStaleClients, List.mem_filter, Nat.not_lt]

/-! ### Claims about the client connection supervisor -/

/-- Running the retry loop from index `i`: if the `k` attempts starting
at `i` fail and attempt `i + k` succeeds (with `k` below the remaining
fuel), the loop returns the connection of attempt `i + k`, having made
`k + 1` dials and slept `k` inter-attempt delays. -/
theorem connectAux_success (dial : Nat → Bool) :
    ∀ k i fuel, k < fuel → (∀ j, j < k → dial (i + j) = false) →
    dial (i + k) = true →
    connectAux dial i fuel = (some (i + k), k + 1, k * ReconnectDelay) := by
  intro k
  induction k with
  | zero =>
    intro i fuel hf _ hk
    match fuel, hf with
    | fuel + 1, _ =>
      simp only [Nat.add_zero] at hk
      simp [connectAux, hk]
  | succ k ih =>
    intro i fuel hf hprev hk
    match fuel, hf with
    | fuel + 1, hf =>
      have h0 : dial i = false := by simpa using hprev 0 (Nat.succ_pos k)
      have hfuel : k < fuel := by omega
      have hne : fuel ≠ 0 := by omega
      have hr := ih (i + 1) fuel hfuel
        (fun j hj => by
          have := hprev (j + 1) (by omega)
          simpa [Nat.add_assoc, Nat.add_comm 1 j] using this)
        (by simpa [Nat.add_assoc, Nat.add_comm 1 k] using hk)
      have h1 : i + 1 + k = i + (k + 1) := by omega
      have h2 : k * ReconnectDelay + ReconnectDelay = (k + 1) * ReconnectDelay :=
        (Nat.succ_mul k ReconnectDelay).symm
      simp only [connectAux, h0, Bool.false_eq_true, if_false, if_neg hne, hr, h1, h2]

/-- Running the retry loop from index `i` with every attempt failing:
it makes exactly `fuel` dials, sleeps between consecutive attempts only
(`fuel - 1` delays), and holds no connection. -/
theorem connectAux_allfail (dial : Nat → Bool) :
    ∀ fuel i, 0 < fuel → (∀ j, j < fuel → dial (i + j) = false) →
    connectAux dial i fuel = (none, fuel, (fuel - 1) * ReconnectDelay) := by
  intro fuel
  induction fuel with
  | zero => intro i h; omega
  | succ fuel ih =>
    intro i _ hall
    have h0 : dial i = false := by simpa using hall 0 (Nat.succ_pos fuel)
    by_cases hz : fuel = 0
    · subst hz
      simp [connectAux, h0]
    · have hr := ih (i + 1) (Nat.pos_of_ne_zero hz)
        (fun j hj => by
          have := hall (j + 1) (by omega)
          simpa [Nat.add_assoc, Nat.add_comm 1 j] using this)
      have hfe : fuel - 1 + 1 = fuel := by omega
      have h2 : (fuel - 1) * ReconnectDelay + ReconnectDelay =
          (fuel + 1 - 1) * ReconnectDelay := by
        calc (fuel - 1) * ReconnectDelay + ReconnectDelay
            = (fuel - 1 + 1) * ReconnectDelay := (Nat.succ_mul _ _).symm
          _ = fuel * ReconnectDelay := by rw [hfe]
          _ = (fuel + 1 - 1) * ReconnectDelay := by rw [Nat.add_sub_cancel]
      simp only [connectAux, h0, Bool.false_eq_true, if_false, if_neg hz, hr, h2]

/-- The retry loop never makes more dial attempts than its fuel. -/
theorem connectAux_attempts_le (dial : Nat → Bool) :
    ∀ fuel i, (connectAux dial i fuel).2.1 ≤ fuel := by
  intro fuel
  induction fuel with
  | zero => intro i; simp [connectAux]
  | succ fuel ih =>
    intro i
    by_cases h : dial i
    · simp [connectAux, h]
    · by_cases hz : fuel = 0
      · subst hz; simp [connectAux, h]
      · have := ih (i + 1)
        simp only [connectAux, h, Bool.false_eq_true, if_false, if_neg hz]
        omega

/-- C7: the connection establishment makes at most
`MaxReconnectTries = 10` dial attempts with a fixed
`ReconnectDelay = 5 s` sleep between consecutive failed attempts.  If
the first `k < 10` attempts fail and attempt `k + 1` succeeds, it ends
connected (holding the connection of attempt index `k`) after exactly
`k + 1` attempts with `k * ReconnectDelay` spent sleeping (so elapsed
time at least `k * 5 s`); if all 10 attempts fail, it returns the fatal
connection error holding no transport handle, after 10 attempts. -/
theorem connect_retry_behaviour (dial : Nat → Bool) (k : Nat) :
    (k < MaxReconnectTries → (∀ j, j < k → dial j = false) → dial k = true →
      connectWithRetry dial = (some k, k + 1, k * ReconnectDelay)) ∧
    ((∀ j, j < MaxReconnectTries → dial j = false) →
      connectWithRetry dial =
        (none, MaxReconnectTries, (MaxReconnectTries - 1) * ReconnectDelay)) ∧
    (connectWithRetry dial).2.1 ≤ MaxReconnectTries := by
  refine ⟨fun hk hfail hsucc => ?_, fun hall => ?_, connectAux_attempts_le dial _ 0⟩
  · have := connectAux_success dial k 0 MaxReconnectTries hk
      (fun j hj => by simpa using hfail j hj) (by simpa using hsucc)
    simpa [connectWithRetry] using this
  · have := connectAux_allfail dial MaxReconnectTries 0 (by decide)
      (fun j hj => by simpa using hall j hj)
    simpa [connectWithRetry] using this

/-- Witness for C7: a server reachable on the third attempt yields a
connection after 3 attempts and 2 delays; an unreachable server yields
no connection after exactly 10 attempts and 9 delays. -/
theorem connect_retry_behaviour_witness :
    connectWithRetry (fun j => decide (j = 2)) = (some 2, 3, 2 * ReconnectDelay) ∧
    connectWithRetry (fun _ => false) = (none, 10, 9 * ReconnectDelay) :=
  ⟨(connect_retry_behaviour (fun j => decide (j = 2)) 2).1
      (by decide) (by decide) (by decide),
   (connect_retry_behaviour (fun _ => false) 0).2.1 (fun j _ => rfl)⟩

/-! ### Claims about the configuration -/

/-- C8 (amended): the display form `Config.String` is independent of
the PSK — two configurations differing only in their PSK print
identically, with the PSK position holding the literal `[REDACTED]` —
but the PSK IS serialized: `SaveConfig` on any valid configuration
writes the YAML marshalling of the whole record, which contains the PSK
bytes verbatim, to persistent storage. -/
theorem psk_redacted_in_display_but_saved (c1 c2 : Config)
    (hip : c1.ServerIP = c2.ServerIP) (hport : c1.ServerPort = c2.ServerPort)
    (hname : c1.AdapterName = c2.AdapterName)
    (hcidr : c1.AdapterIPCIDR = c2.AdapterIPCIDR) :
    Config.stringRepr c1 = Config.stringRepr c2 ∧
    (c1.Validate = [] →
      c1.SaveConfig = .ok (yamlPrePSK c1 ++ c1.PSK ++ yamlPostPSK c1)) := by
  constructor
  · simp [Config.stringRepr, hip, hport, hname, hcidr]
  · intro hv
    simp [Config.SaveConfig, hv, yamlMarshal, yamlPrePSK, yamlPostPSK,
      List.append_assoc]

/-- Witness for C8 (amended) at two concrete configurations differing
only in the PSK. -/
theorem psk_redacted_in_display_but_saved_witness :
    Config.stringRepr cfgSample = Config.stringRepr cfgSample2 ∧
    cfgSample.SaveConfig =
      .ok (yamlPrePSK cfgSample ++ cfgSample.PSK ++ yamlPostPSK cfgSample) :=
  ⟨(psk_redacted_in_display_but_saved cfgSample cfgSample2 rfl rfl rfl rfl).1,
   (psk_redacted_in_display_but_saved cfgSample cfgSample2 rfl rfl rfl rfl).2
     (by decide)⟩

/-- Counterexample to C8 as stated: `SaveConfig` on a concrete valid
configuration whose PSK is `abcdefghijklmnop` writes those PSK bytes,
verbatim, into the persisted YAML — a program operation does write the
PSK to persistent storage. -/
theorem psk_saved_to_disk_counterexample :
    cfgSample.SaveConfig =
      .ok ("server_ip: 10.8.0.1\nserver_port: 51820\npsk: ".data ++
        "abcdefghijklmnop".data ++
        "\nadapter_name: GoVPN-Server\nadapter_ip_cidr: 10.8.0.1/24\n".data) := by
  rfl

/-- C10: `NewCipher(key)` succeeds exactly when the key is 16, 24 or 32
bytes long; configuration validation accepts any PSK whose trimmed
length lies between 16 and 64 characters (given otherwise-valid
fields); hence the validation-passing configuration `cfg17` with a
17-character PSK fails cipher initialization at startup. -/
theorem cipher_key_vs_validation (mkAEAD : List Nat → AEAD) (psk : List Char)
    (h16 : 16 ≤ (trimSpace psk).length) (h64 : (trimSpace psk).length ≤ 64) :
    (∀ key : List Nat,
      (NewCipher mkAEAD key).toOption.isSome = aesKeyLengthOk key.length) ∧
    Config.Validate { cfgSample with PSK := psk } = [] ∧
    Config.Validate cfg17 = [] ∧
    (NewCipher mkAEAD (strBytes cfg17.PSK)).toOption.isSome = false := by
  refine ⟨fun key => ?_, ?_, by decide, ?_⟩
  · by_cases h : aesKeyLengthOk key.length <;>
      simp [NewCipher, h, Except.toOption]
  · have hne : trimSpace psk ≠ [] := by
      intro h
      rw [h] at h16
      simp at h16
    simp [Config.Validate, hne, Nat.not_lt.mpr h16, Nat.not_lt.mpr h64]
    decide
  · have hlen : (strBytes cfg17.PSK).length = 17 := by decide
    simp [NewCipher, hlen, aesKeyLengthOk, Except.toOption]

/-- Witness for C10 at a concrete 20-character PSK and 1-byte key. -/
theorem cipher_key_vs_validation_witness :
    (NewCipher (fun _ => gcm12) [1]).toOption.isSome =
      aesKeyLengthOk ([1] : List Nat).length ∧
    Config.Validate { cfgSample with PSK := "0123456789abcdefghij".data } = [] ∧
    Config.Validate cfg17 = [] ∧
    (NewCipher (fun _ => gcm12) (strBytes cfg17.PSK)).toOption.isSome = false :=
  let t := cipher_key_vs_validation (fun _ => gcm12)
    ("0123456789abcdefghij".data) (by decide) (by decide)
  ⟨t.1 [1], t.2.1, t.2.2.1, t.2.2.2⟩

end GoVPN
